import Mathlib

/-!
Verification of the document range/selection serialization engine
(dom/serializers/nsDocumentEncoder.cpp).

The development is a shallow embedding of the C++ source:

* the DOM is a tree of values (`DomNode`); node identity ("pointer
  equality" in the C++) is represented by the node's path from the root,
  an approach that is adequate because the engine only reads the tree;
* the external ContentSerializer (a per-format writer) is modelled by a
  list of emitted events (`SerialEvent`); how the writer renders an
  event to characters is an injected parameter of the configuration,
  mirroring the fact that the writer is an external collaborator;
* layout queries (visibility, selectability, invisible line breaks) are
  injected boolean predicates, as the engine treats them;
* `nsresult` is modelled by `Bool` (`true` = `NS_OK`);
* machine integers: offsets that use `-1` as a sentinel are `Int`,
  counters and lengths are `Nat` (no arithmetic in the source can
  overflow in a way any claim depends on);
* the recursive tree walks carry an explicit fuel.  The C++ recursion is
  bounded by the tree height (plus the behavior of the node-fixup hook);
  out-of-fuel returns success without output, and entry points pass a
  fuel exceeding the tree size, so the fuel never runs out on the
  concrete executions below.  Equivalence theorems relate runs at equal
  fuel, matching the source, where both sides are the same call.

Not modelled (external to the translation unit or dead under the
configurations the claims quantify over): shadow DOM / flattened-tree
traversal (theorems about ranges either hypothesize that cross-shadow
traversal is disabled or do not depend on it), `<template>` content
fragments, character-set transcoding internals (the encoder is the
identity on code units), and preformat-scan notifications (they produce
no output).
-/

/-! ## TextStreamer (lines 63-167 of the source) -/

def kMaxLengthBeforeFlush : Nat := 1024

def kEncoderBufferSizeInBytes : Nat := 4096

/-- The byte sink behind `nsIOutputStream`.  `writes` records each
successful `Write` call; `failSchedule` is an external schedule of write
failures (head `true` makes the next write fail), modelling that the
stream may fail transiently. -/
structure Sink where
  writes : List (List Char)
  failSchedule : List Bool
deriving DecidableEq

/-- One `mStream->Write` call.  Returns the new sink state and whether
the write succeeded. -/
def sinkWrite (s : Sink) (data : List Char) : Sink × Bool :=
  match s.failSchedule with
  | true :: rest => ({ s with failSchedule := rest }, false)
  | false :: rest => ({ writes := s.writes ++ [data], failSchedule := rest }, true)
  | [] => ({ s with writes := s.writes ++ [data] }, true)

/-- State of a `TextStreamer`: the referenced UTF-16 output buffer and
the owned stream.  The unicode encoder is modelled as the identity on
code units (transcoding is external), so each loop iteration of
`EncodeAndWrite` consumes one destination buffer of
`kEncoderBufferSizeInBytes - 1` units (one byte is reserved for the
terminator). -/
structure TextStreamerState where
  outputBuffer : List Char
  sink : Sink
  isPlainText : Bool
deriving DecidableEq

/-- The write loop of `TextStreamer::EncodeAndWrite` (lines 129-160):
encode a chunk into the fixed-size buffer, write it, stop on write
failure or once the input is exhausted. -/
def encodeAndWriteLoop (src : List Char) (sink : Sink) : Sink × Bool :=
  let chunk := src.take (kEncoderBufferSizeInBytes - 1)
  let step := sinkWrite sink chunk
  if ¬ step.2 then (step.1, false)
  else
    match h : src.drop (kEncoderBufferSizeInBytes - 1) with
    | [] => (step.1, true)
    | c :: cs => encodeAndWriteLoop (c :: cs) step.1
termination_by src.length
decreasing_by
  have h3 : ¬ src.length ≤ kEncoderBufferSizeInBytes - 1 := by
    intro hc
    rw [List.drop_eq_nil_of_le hc] at h
    cases h
  have h4 := List.length_drop (kEncoderBufferSizeInBytes - 1) src
  rw [h] at h4
  simp only [kEncoderBufferSizeInBytes] at h3 h4 ⊢
  omega

/-- `TextStreamer::EncodeAndWrite` (lines 119-161). -/
def encodeAndWrite (ts : TextStreamerState) : TextStreamerState × Bool :=
  if ts.outputBuffer.isEmpty then (ts, true)
  else
    let r := encodeAndWriteLoop ts.outputBuffer ts.sink
    ({ ts with sink := r.1 }, r.2)

/-- `TextStreamer::EncodeAndWriteAndTruncate` (lines 163-167): the
buffer is truncated regardless of the write result. -/
def encodeAndWriteAndTruncate (ts : TextStreamerState) : TextStreamerState × Bool :=
  let r := encodeAndWrite ts
  ({ r.1 with outputBuffer := [] }, r.2)

/-- `TextStreamer::FlushIfStringLongEnough` (lines 107-115). -/
def flushIfStringLongEnough (ts : TextStreamerState) : TextStreamerState × Bool :=
  if kMaxLengthBeforeFlush < ts.outputBuffer.length then
    encodeAndWriteAndTruncate ts
  else (ts, true)

/-- `TextStreamer::ForceFlush` (line 117). -/
def forceFlush (ts : TextStreamerState) : TextStreamerState × Bool :=
  encodeAndWriteAndTruncate ts

/-- On a sink with no scheduled failures, the write loop appends exactly
the source characters (in chunks) to the sink and succeeds. -/
theorem encodeAndWriteLoop_ok (n : Nat) :
    ∀ src sink, src.length ≤ n → sink.failSchedule = [] →
      (encodeAndWriteLoop src sink).1.writes.flatten
          = sink.writes.flatten ++ src ∧
        (encodeAndWriteLoop src sink).1.failSchedule = [] ∧
        (encodeAndWriteLoop src sink).2 = true := by
  induction n with
  | zero =>
    intro src sink hlen hfail
    have hsrc : src = [] := List.length_eq_zero.mp (Nat.le_zero.mp hlen)
    subst hsrc
    rw [encodeAndWriteLoop.eq_def]
    simp only [sinkWrite, hfail]
    split
    next hcon => exact absurd trivial hcon
    next =>
      split
      next => simp
      next c cs heq => simp at heq
  | succ n ih =>
    intro src sink hlen hfail
    rw [encodeAndWriteLoop.eq_def]
    simp only [sinkWrite, hfail]
    split
    next hcon => exact absurd trivial hcon
    next =>
      split
      next heq =>
        have htake : src.take (kEncoderBufferSizeInBytes - 1) = src := by
          have h0 := List.take_append_drop (kEncoderBufferSizeInBytes - 1) src
          rw [heq, List.append_nil] at h0
          exact h0
        simp [htake]
      next c cs heq =>
        have hlt : (c :: cs).length ≤ n := by
          have h1 := List.length_drop (kEncoderBufferSizeInBytes - 1) src
          rw [heq] at h1
          have h2 : ¬ src.length ≤ kEncoderBufferSizeInBytes - 1 := by
            intro hc
            rw [List.drop_eq_nil_of_le hc] at heq
            cases heq
          simp only [kEncoderBufferSizeInBytes] at h1 h2
          simp only [List.length_cons] at h1 ⊢
          omega
        have hih := ih (c :: cs)
          { writes := sink.writes ++ [src.take (kEncoderBufferSizeInBytes - 1)],
            failSchedule := [] } hlt rfl
        simp only at hih
        refine ⟨?_, hih.2.1, hih.2.2⟩
        rw [hih.1]
        have hjoin : src.take (kEncoderBufferSizeInBytes - 1) ++ (c :: cs) = src := by
          rw [← heq]; exact List.take_append_drop _ _
        calc (sink.writes ++ [src.take (kEncoderBufferSizeInBytes - 1)]).flatten ++ (c :: cs)
            = sink.writes.flatten
                ++ (src.take (kEncoderBufferSizeInBytes - 1) ++ (c :: cs)) := by simp
          _ = sink.writes.flatten ++ src := by rw [hjoin]

/-- C5: `TextStreamer::FlushIfStringLongEnough` performs the
encode-write-truncate step exactly when the buffered text is strictly
longer than 1024 code units (and is a no-op otherwise);
`TextStreamer::ForceFlush` always performs it; the buffer is truncated
even when the sink write fails; and on a non-failing sink a flush
appends exactly the buffered characters to the sink and succeeds. -/
theorem c5_textStreamer_flush_contract (ts : TextStreamerState) :
    (ts.outputBuffer.length ≤ kMaxLengthBeforeFlush →
        flushIfStringLongEnough ts = (ts, true)) ∧
    (kMaxLengthBeforeFlush < ts.outputBuffer.length →
        flushIfStringLongEnough ts = encodeAndWriteAndTruncate ts) ∧
    forceFlush ts = encodeAndWriteAndTruncate ts ∧
    (encodeAndWriteAndTruncate ts).1.outputBuffer = [] ∧
    (ts.sink.failSchedule = [] →
        (forceFlush ts).1.sink.writes.flatten
            = ts.sink.writes.flatten ++ ts.outputBuffer ∧
          (forceFlush ts).2 = true) := by
  refine ⟨?_, ?_, rfl, rfl, ?_⟩
  · intro hle
    rw [flushIfStringLongEnough, if_neg (by omega)]
  · intro hlt
    rw [flushIfStringLongEnough, if_pos hlt]
  · intro hfail
    by_cases hb : ts.outputBuffer = []
    · simp [forceFlush, encodeAndWriteAndTruncate, encodeAndWrite, hb]
    · have hloop := encodeAndWriteLoop_ok ts.outputBuffer.length
        ts.outputBuffer ts.sink le_rfl hfail
      have hbe : ts.outputBuffer.isEmpty = false := by
        simp [List.isEmpty_iff, hb]
      simp [forceFlush, encodeAndWriteAndTruncate, encodeAndWrite, hbe,
        hloop.1, hloop.2.2]

/-- A streamer holding 1025 buffered code units over a healthy sink. -/
def tsWitness : TextStreamerState :=
  { outputBuffer := List.replicate 1025 'x',
    sink := { writes := [], failSchedule := [] },
    isPlainText := true }

theorem c5_textStreamer_flush_contract_witness :
    kMaxLengthBeforeFlush < tsWitness.outputBuffer.length ∧
    flushIfStringLongEnough tsWitness = encodeAndWriteAndTruncate tsWitness ∧
    tsWitness.sink.failSchedule = [] ∧
    (forceFlush tsWitness).1.sink.writes.flatten
        = tsWitness.sink.writes.flatten ++ tsWitness.outputBuffer ∧
    (forceFlush tsWitness).2 = true :=
  ⟨by
     show kMaxLengthBeforeFlush < (List.replicate 1025 'x').length
     rw [List.length_replicate]
     norm_num [kMaxLengthBeforeFlush],
   (c5_textStreamer_flush_contract tsWitness).2.1
     (by
       show kMaxLengthBeforeFlush < (List.replicate 1025 'x').length
       rw [List.length_replicate]
       norm_num [kMaxLengthBeforeFlush]),
   rfl,
   ((c5_textStreamer_flush_contract tsWitness).2.2.2.2 rfl).1,
   ((c5_textStreamer_flush_contract tsWitness).2.2.2.2 rfl).2⟩

/-! ## The DOM model -/

/-- Element tag names, as plain atoms (the engine compares tags against
a fixed set of HTML atoms such as `nsGkAtoms::tr`). -/
inductive Tag where
  | body | tr | td | th | table | tbody | thead | tfoot
  | div | par | pre | b | br | span | slot
  | anon (n : Nat)
deriving DecidableEq

/-- A DOM node.  Element nodes carry the externally determined per-node
properties the engine queries: `editable` (`nsINode::IsEditable`) and
`paddingBR` (`HTMLBRElement::IsPaddingForEmptyLastLine`, meaningful only
for `br`).  Text nodes also carry `editable`.  CDATA sections,
processing instructions, doctypes (whose append calls are analogous to
comments), shadow roots, templates and document fragments are outside
the model. -/
inductive DomNode where
  | element (tag : Tag) (editable : Bool) (paddingBR : Bool)
      (children : List DomNode)
  | text (editable : Bool) (data : List Char)
  | comment (data : List Char)

def DomNode.childrenList : DomNode → List DomNode
  | .element _ _ _ cs => cs
  | _ => []

def DomNode.childCount (n : DomNode) : Nat := n.childrenList.length

def DomNode.isTextNode : DomNode → Bool
  | .text _ _ => true
  | _ => false

def DomNode.tagOf : DomNode → Option Tag
  | .element t _ _ _ => some t
  | _ => none

/-- Resolve a path of child indices starting at `root`.  Node identity
(pointer equality in the C++) is path equality in the model. -/
def nodeAt (root : DomNode) : List Nat → Option DomNode
  | [] => some root
  | i :: p =>
    match root.childrenList.get? i with
    | some c => nodeAt c p
    | none => none

mutual

/-- Number of nodes of a tree (an upper bound on its height). -/
def DomNode.size : DomNode → Nat
  | .element _ _ _ cs => 1 + DomNode.sizeList cs
  | .text _ _ => 1
  | .comment _ => 1

def DomNode.sizeList : List DomNode → Nat
  | [] => 0
  | c :: cs => DomNode.size c + DomNode.sizeList cs

end

/-- Fuel bound handed to the tree walks; any walk of the C++ recursion
descends at most `root.size` levels. -/
def domFuel (root : DomNode) : Nat := root.size + 1

/-! ## Serialization events (the external ContentSerializer) -/

/-- One call into the external per-format writer. -/
inductive SerialEvent where
  | documentStart
  | elementStart (tag : Tag)
  | elementEnd (tag : Tag)
  | textEvt (data : List Char) (startOffset endOffset : Int)
  | commentEvt (data : List Char) (startOffset endOffset : Int)
deriving DecidableEq

/-- Modelled from the spec: the external ContentSerializer contract
renders `append_text(text, start, end)` as the code units in the
half-open window `[start, end)`, a negative end meaning "to the end of
the text". -/
def emittedText : SerialEvent → List Char
  | .textEvt data s e =>
    let en := if e < 0 then data.length else e.toNat
    (data.take en).drop s.toNat
  | _ => []

/-- The injected `RangeNodeContext` strategy pair (virtual methods
`IncludeInContext` and `GetImmediateContextCount`). -/
structure RangeNodeContextModel where
  includeInContext : DomNode → Bool
  getImmediateContextCount : List DomNode → Int

/-- The base `nsDocumentEncoder::RangeNodeContext` (lines 220-230). -/
def baseRangeNodeContext : RangeNodeContextModel :=
  { includeInContext := fun _ => false,
    getImmediateContextCount := fun _ => -1 }

/-- Per-pass configuration: the relevant `nsIDocumentEncoder` flags, the
optional node-fixup hook, the injected layout predicates (`invisible`
for `IsInvisibleNodeAndShouldBeSkipped`, `unselectable` for
`!frame->IsSelectable()`, `invisibleBreak` for
`nsLayoutUtils::IsInvisibleBreak`), the external writer's rendering of
one event (which determines `GetOutputLength`), and the injected
range-node-context strategy. -/
structure EncoderConfig where
  nodeFixup : Option (DomNode → DomNode × Bool)
  skipInvisibleContent : Bool
  outputPreformatted : Bool
  outputDropInvisibleBreak : Bool
  allowCrossShadowBoundary : Bool
  invisible : DomNode → Bool
  unselectable : DomNode → Bool
  invisibleBreak : DomNode → Bool
  noFrame : DomNode → Bool
  render : SerialEvent → List Char
  rnc : RangeNodeContextModel

/-- The mutable output-side state threaded through a pass: the content
serializer's accumulated output and the optional `mTextStreamer`. -/
structure EncState where
  events : List SerialEvent
  streamer : Option TextStreamerState
deriving DecidableEq

def appendEvents (st : EncState) (evs : List SerialEvent) : EncState :=
  { st with events := st.events ++ evs }

/-- `nsIContentSerializer::GetOutputLength`: the length of the output
the external writer has produced for the events so far. -/
def eventsLength (cfg : EncoderConfig) (evs : List SerialEvent) : Nat :=
  (evs.map (fun e => (cfg.render e).length)).sum

/-- `nsDocumentEncoder::IsInvisibleNodeAndShouldBeSkipped` (lines
272-314); the layout interrogation is the injected predicate. -/
def isInvisibleNodeAndShouldBeSkipped (cfg : EncoderConfig)
    (n : DomNode) : Bool :=
  cfg.skipInvisibleContent && cfg.invisible n

/-- `FixupNodeDeterminer` (lines 795-830): with no fixup hook installed
the original node is used (an explicitly supplied fixup node is honored
only when a hook is installed); the second component is
`IsSerializationOfFixupChildrenNeeded`. -/
def determineFixupNode (fixup : Option (DomNode → DomNode × Bool))
    (orig : DomNode) (given : Option DomNode) : DomNode × Bool :=
  match fixup with
  | none => (orig, false)
  | some f =>
    match given with
    | some g => (g, false)
    | none => f orig

/-- `NodeSerializer::SerializeNodeStart` (lines 832-894).  Preformat
scan notifications produce no output and are not modelled. -/
def serializeNodeStart (cfg : EncoderConfig) (origNode : DomNode)
    (startOffset endOffset : Int) (fixupNode : Option DomNode) :
    List SerialEvent :=
  if isInvisibleNodeAndShouldBeSkipped cfg origNode then []
  else
    let node := (determineFixupNode cfg.nodeFixup origNode fixupNode).1
    match node with
    | .element tag _ _ _ =>
      if (cfg.outputPreformatted || cfg.outputDropInvisibleBreak)
          && cfg.invisibleBreak node then []
      else [.elementStart tag]
    | .text _ data => [.textEvt data startOffset endOffset]
    | .comment data => [.commentEvt data startOffset endOffset]

/-- `NodeSerializer::SerializeNodeEnd` (lines 896-925). -/
def serializeNodeEnd (cfg : EncoderConfig) (origNode : DomNode)
    (fixupNode : Option DomNode) : List SerialEvent :=
  if isInvisibleNodeAndShouldBeSkipped cfg origNode then []
  else
    match (determineFixupNode cfg.nodeFixup origNode fixupNode).1 with
    | .element tag _ _ _ => [.elementEnd tag]
    | _ => []

/-- `NodeSerializer::SerializeTextNode` (lines 1065-1074). -/
def nsSerializeTextNode (cfg : EncoderConfig) (node : DomNode)
    (startOffset endOffset : Int) : List SerialEvent :=
  serializeNodeStart cfg node startOffset endOffset none
    ++ serializeNodeEnd cfg node none

/-- `NodeSerializer::SerializeToStringRecursive` (lines 927-1027).
Children are iterated in document order (the slot / shadow-root special
cases are dead without shadow DOM); a failing child aborts before the
end event, as the `NS_ENSURE_SUCCESS` early return does; when a text
streamer is active the buffer is flushed if long enough at the end. -/
def serializeToStringRecursive (cfg : EncoderConfig) :
    Nat → DomNode → Bool → Nat → EncState → EncState × Bool
  | 0, _, _, _, st => (st, true)
  | f + 1, node, serializeRootIn, maxLength, st =>
    let outputLength := eventsLength cfg st.events
    if maxLength > 0 ∧ maxLength ≤ outputLength then (st, true)
    else if isInvisibleNodeAndShouldBeSkipped cfg node then (st, true)
    else
      let fix := determineFixupNode cfg.nodeFixup node none
      let maybeFixedNode := fix.1
      let serializeRoot :=
        if cfg.skipInvisibleContent && cfg.unselectable node then false
        else serializeRootIn
      let st :=
        if serializeRoot then
          let endOffset : Int :=
            if maxLength > 0 then (maxLength : Int) - (outputLength : Int)
            else -1
          appendEvents st
            (serializeNodeStart cfg node 0 endOffset (some maybeFixedNode))
        else st
      let childSource := if fix.2 then maybeFixedNode else node
      let r := childSource.childrenList.foldl
        (fun (acc : EncState × Bool) child =>
          if acc.2 then serializeToStringRecursive cfg f child true maxLength acc.1
          else acc)
        (st, true)
      if ¬ r.2 then (r.1, false)
      else
        let st :=
          if serializeRoot then
            appendEvents r.1 (serializeNodeEnd cfg node (some maybeFixedNode))
          else r.1
        match st.streamer with
        | some ts =>
          let fr := flushIfStringLongEnough ts
          ({ st with streamer := some fr.1 }, fr.2)
        | none => (st, true)

def firstChildPath (root : DomNode) (p : List Nat) : Option (List Nat) :=
  match nodeAt root p with
  | some n => if n.childCount = 0 then none else some (p ++ [0])
  | none => none

def nextSiblingPath (root : DomNode) (p : List Nat) : Option (List Nat) :=
  match p.getLast? with
  | none => none
  | some i =>
    let parent := p.dropLast
    match nodeAt root parent with
    | some pn =>
      if i + 1 < pn.childCount then some (parent ++ [i + 1]) else none
    | none => none

/-- The inner loop of `SerializeToStringIterative` (lines 1039-1057):
pop back up emitting end events until a next sibling exists or the walk
returns to the subtree root (template-content hosts do not occur in the
model).  Returns the next node to visit, if any. -/
def serializeIterativeInner (cfg : EncoderConfig) (root : DomNode) :
    Nat → List Nat → EncState → Option (List Nat) × EncState
  | 0, _, st => (none, st)
  | f + 1, current, st =>
    let st :=
      match nodeAt root current with
      | some n => appendEvents st (serializeNodeEnd cfg n none)
      | none => st
    match nextSiblingPath root current with
    | some sib => (some sib, st)
    | none =>
      let parent := current.dropLast
      if parent = ([] : List Nat) then (none, st)
      else serializeIterativeInner cfg root f parent st

/-- The outer loop of `NodeSerializer::SerializeToStringIterative`
(lines 1029-1061). -/
def serializeIterativeOuter (cfg : EncoderConfig) (root : DomNode) :
    Nat → Option (List Nat) → EncState → EncState × Bool
  | _, none, st => (st, true)
  | 0, some _, st => (st, true)
  | f + 1, some p, st =>
    match nodeAt root p with
    | none => (st, true)
    | some cur =>
      let st := appendEvents st (serializeNodeStart cfg cur 0 (-1) (some cur))
      match firstChildPath root p with
      | some c => serializeIterativeOuter cfg root f (some c) st
      | none =>
        let r := serializeIterativeInner cfg root f p st
        serializeIterativeOuter cfg root f r.1 r.2

/-- `NodeSerializer::SerializeToStringIterative` (lines 1029-1061): the
cursor walk over the subtree of `root`, which never serializes `root`
itself. -/
def serializeToStringIterative (cfg : EncoderConfig) (root : DomNode)
    (st : EncState) : EncState × Bool :=
  serializeIterativeOuter cfg root (2 * root.size + 2)
    (firstChildPath root []) st

/-! ## RangeContextSerializer and the range walk -/

/-- `GetClosestCommonInclusiveAncestor` in the path model: the longest
common path of the two boundary containers. -/
def commonAncestorPath : List Nat → List Nat → List Nat
  | i :: p, j :: q => if i = j then i :: commonAncestorPath p q else []
  | _, _ => []

/-- The inclusive-ancestor chain of a path, from the node itself up to
the root (`nsContentUtils::GetInclusiveAncestors` order). -/
def inclusiveAncestorPaths (p : List Nat) : List (List Nat) :=
  (List.range (p.length + 1)).reverse.map (fun k => p.take k)

def inclusiveAncestorNodes (doc : DomNode) (p : List Nat) : List DomNode :=
  (inclusiveAncestorPaths p).filterMap (nodeAt doc)

/-- Mutable state of `RangeContextSerializer` (lines 401-423):
`mDisableContextSerialize` and the stack `mRangeContexts` of
emitted-ancestor lists (top of stack is the last entry, as in
`nsTArray`).  `assertFailed` is a ghost flag recording that the fatal
`MOZ_RELEASE_ASSERT` in `SerializeRangeContextEnd` fired. -/
structure RangeCtxState where
  disableContextSerialize : Bool
  rangeContexts : List (List DomNode)
  assertFailed : Bool

/-- `RangeContextSerializer::SerializeRangeContextStart` (lines
1297-1324): iterate the ancestor array from the root end downward,
emitting a start event for each ancestor accepted by the strategy
(general inclusion, or index below the immediate-context count), and
push the list of emitted ancestors. -/
def serializeRangeContextStart (cfg : EncoderConfig) (rcs : RangeCtxState)
    (ancestorArray : List DomNode) : RangeCtxState × List SerialEvent :=
  if rcs.disableContextSerialize then (rcs, [])
  else
    let j := cfg.rnc.getImmediateContextCount ancestorArray
    let r := (List.range ancestorArray.length).reverse.foldl
      (fun (acc : List DomNode × List SerialEvent) i =>
        match ancestorArray.get? i with
        | none => acc
        | some node =>
          if cfg.rnc.includeInContext node || (i : Int) < j then
            (acc.1 ++ [node], acc.2 ++ serializeNodeStart cfg node 0 (-1) none)
          else acc)
      ([], [])
    ({ rcs with rangeContexts := rcs.rangeContexts ++ [r.1] }, r.2)

/-- `RangeContextSerializer::SerializeRangeContextEnd` (lines
1326-1344): with the disable flag clear, pop the most recent
emitted-ancestor list and emit its end events in reverse order; an empty
stack fires the fatal assertion. -/
def serializeRangeContextEnd (cfg : EncoderConfig) (rcs : RangeCtxState) :
    RangeCtxState × List SerialEvent :=
  if rcs.disableContextSerialize then (rcs, [])
  else
    match rcs.rangeContexts.getLast? with
    | none => ({ rcs with assertFailed := true }, [])
    | some ctxList =>
      let evs := ctxList.reverse.foldl
        (fun acc node => acc ++ serializeNodeEnd cfg node none) []
      ({ rcs with rangeContexts := rcs.rangeContexts.dropLast }, evs)

/-- The across-ranges mutable fields of `RangeSerializer`:
`mContextInfoDepth`, `mHaltRangeHint` and `mCommonInclusiveAncestors`
(the per-range data recomputed by `SerializeRangeToString` lives in
`RangeWalkCtx`). -/
structure RangeSer where
  ctxDepthStart : Nat
  ctxDepthEnd : Nat
  haltRangeHint : Bool
  commonInclusiveAncestors : List DomNode

/-- The full walk state threaded through `SerializeRangeToString` and
the selection walk. -/
structure WalkState where
  rs : RangeSer
  rcs : RangeCtxState
  st : EncState

/-- A range: boundary container paths and offsets, plus the
`MayCrossShadowBoundary` property of `nsRange`. -/
structure RangeModel where
  startPath : List Nat
  startOffset : Nat
  endPath : List Nat
  endOffset : Nat
  mayCrossShadowBoundary : Bool

/-- `AbstractRange::Collapsed`. -/
def RangeModel.collapsed (r : RangeModel) : Bool :=
  r.startPath == r.endPath && r.startOffset == r.endOffset

/-- Per-range immutable data computed at the top of
`SerializeRangeToString`: the boundaries, the closest common inclusive
ancestor, and `mStartRootIndex`/`mEndRootIndex` (the index of the common
ancestor within each boundary's inclusive-ancestor chain). -/
structure RangeWalkCtx where
  startPath : List Nat
  startOffset : Nat
  endPath : List Nat
  endOffset : Nat
  commonPath : List Nat
  startRootIndex : Int
  endRootIndex : Int

/-- `GetStartAndEndContentForRecursionLevel` (lines 1076-1096), start
half.  Chain entry `i` is the prefix of the boundary path of length
`length - i`; the in-bounds condition is `0 ≤ i ≤ length` (the source
checks against the chain's element count; the equal-to-count case
cannot occur since `mStartRootIndex` is at most the path length). -/
def startContentAt (ctx : RangeWalkCtx) (d : Nat) : Option (List Nat) :=
  let start : Int := ctx.startRootIndex - d
  if 0 ≤ start ∧ start ≤ (ctx.startPath.length : Int) then
    some (ctx.startPath.take (ctx.startPath.length - start.toNat))
  else none

/-- End half of `GetStartAndEndContentForRecursionLevel`. -/
def endContentAt (ctx : RangeWalkCtx) (d : Nat) : Option (List Nat) :=
  let e : Int := ctx.endRootIndex - d
  if 0 ≤ e ∧ e ≤ (ctx.endPath.length : Int) then
    some (ctx.endPath.take (ctx.endPath.length - e.toNat))
  else none

/-- Entry `mStartRootIndex - aDepth` of
`mInclusiveAncestorsOffsetsOfStart`: entry 0 is the boundary offset,
entry `i ≥ 1` is the child index of chain entry `i-1` within chain entry
`i`, i.e. the path component at position `length - i`.  In the path
model `ComputeIndexOf` cannot fail, so present entries are `some`. -/
def startOffsetsAt (ctx : RangeWalkCtx) (d : Nat) : Option Nat :=
  let i : Int := ctx.startRootIndex - d
  if i = 0 then some ctx.startOffset
  else if 0 < i ∧ i ≤ (ctx.startPath.length : Int) then
    ctx.startPath.get? (ctx.startPath.length - i.toNat)
  else none

/-- Entry `mEndRootIndex - aDepth` of `mInclusiveAncestorsOffsetsOfEnd`. -/
def endOffsetsAt (ctx : RangeWalkCtx) (d : Nat) : Option Nat :=
  let i : Int := ctx.endRootIndex - d
  if i = 0 then some ctx.endOffset
  else if 0 < i ∧ i ≤ (ctx.endPath.length : Int) then
    ctx.endPath.get? (ctx.endPath.length - i.toNat)
  else none

/-- `RangeSerializer::HasInvisibleParentAndShouldBeSkipped` (lines
1346-1361): with the skip-invisible flag set, a frameless node is
skipped when its parent is missing or invisible. -/
def hasInvisibleParentAndShouldBeSkipped (doc : DomNode)
    (cfg : EncoderConfig) (p : List Nat) : Bool :=
  if ¬ cfg.skipInvisibleContent then false
  else
    match nodeAt doc p with
    | none => false
    | some n =>
      if cfg.noFrame n then
        match p with
        | [] => true
        | _ :: _ =>
          match nodeAt doc p.dropLast with
          | some parent => isInvisibleNodeAndShouldBeSkipped cfg parent
          | none => true
      else false

mutual

/-- `RangeSerializer::SerializeRangeNodes` (lines 1112-1144): a node
that is neither boundary's inclusive ancestor at the current recursion
depth is fully contained and serialized whole by the NodeSerializer;
otherwise it is partially contained. -/
def serializeRangeNodes (doc : DomNode) (cfg : EncoderConfig)
    (ctx : RangeWalkCtx) :
    Nat → List Nat → Nat → RangeSer → EncState → (RangeSer × EncState) × Bool
  | 0, _, _, rs, st => ((rs, st), true)
  | f + 1, p, d, rs, st =>
    match nodeAt doc p with
    | none => ((rs, st), false)
    | some node =>
      if isInvisibleNodeAndShouldBeSkipped cfg node then ((rs, st), true)
      else
        let startC := startContentAt ctx d
        let endC := endContentAt ctx d
        if startC ≠ some p ∧ endC ≠ some p then
          let r := serializeToStringRecursive cfg f node true 0 st
          ((rs, r.1), r.2)
        else
          serializeNodePartiallyContained doc cfg ctx f p node startC endC d rs st
termination_by f _ _ _ _ => (f, 0, 0)

/-- `RangeSerializer::SerializeNodePartiallyContainedInRange` (lines
1146-1235). -/
def serializeNodePartiallyContained (doc : DomNode) (cfg : EncoderConfig)
    (ctx : RangeWalkCtx) (f : Nat) (p : List Nat) (node : DomNode)
    (startC endC : Option (List Nat)) (d : Nat) (rs : RangeSer)
    (st : EncState) : (RangeSer × EncState) × Bool :=
  match node with
  | .text _ _ =>
    let s : Int := if startC = some p then (ctx.startOffset : Int) else 0
    let e : Int := if endC = some p then (ctx.endOffset : Int) else -1
    ((rs, appendEvents st (nsSerializeTextNode cfg node s e)), true)
  | _ =>
    let afterStart :=
      if p ≠ ctx.commonPath then
        let rs :=
          if cfg.rnc.includeInContext node then
            { rs with haltRangeHint := true }
          else rs
        let rs :=
          if startC = some p ∧ ¬ rs.haltRangeHint then
            { rs with ctxDepthStart := rs.ctxDepthStart + 1 }
          else rs
        let rs :=
          if endC = some p ∧ ¬ rs.haltRangeHint then
            { rs with ctxDepthEnd := rs.ctxDepthEnd + 1 }
          else rs
        (rs, appendEvents st (serializeNodeStart cfg node 0 (-1) none))
      else (rs, st)
    let rs := afterStart.1
    let st := afterStart.2
    let startOffsetM : Option Nat :=
      if startC = some p ∧ (d : Int) ≤ ctx.startRootIndex then
        startOffsetsAt ctx d
      else some 0
    let endOffsetM : Option Nat :=
      if endC = some p ∧ (d : Int) ≤ ctx.endRootIndex then
        endOffsetsAt ctx d
      else none
    let startOffset := startOffsetM.getD 0
    let endOffset :=
      match endOffsetM with
      | none => node.childCount
      | some eo => if p ≠ ctx.endPath then eo + 1 else eo
    let r := serializeChildrenOfContent doc cfg ctx f p node startOffset
      endOffset d rs st
    if ¬ r.2 then (r.1, false)
    else
      let rs := r.1.1
      let st := r.1.2
      let st :=
        if p ≠ ctx.commonPath then
          appendEvents st (serializeNodeEnd cfg node none)
        else st
      ((rs, st), true)
termination_by (f, 2, 0)

/-- `RangeSerializer::SerializeChildrenOfContent` (lines 1237-1295):
iterate the children in `[aStartOffset, aEndOffset)` (stopping early
when the children run out, as the null-sibling check does); the first
and last child of the window recurse into the range walk at depth + 1,
interior children are serialized whole. -/
def serializeChildrenOfContent (doc : DomNode) (cfg : EncoderConfig)
    (ctx : RangeWalkCtx) (f : Nat) (p : List Nat) (node : DomNode)
    (aStartOffset aEndOffset : Nat) (d : Nat) (rs : RangeSer)
    (st : EncState) : (RangeSer × EncState) × Bool :=
  if aEndOffset = 0 then ((rs, st), true)
  else
    let children := node.childrenList
    (List.range' aStartOffset
        (min aEndOffset children.length - aStartOffset)).foldl
      (fun (acc : (RangeSer × EncState) × Bool) j =>
        if ¬ acc.2 then acc
        else
          match children.get? j with
          | none => acc
          | some child =>
            if j = aStartOffset ∨ j = aEndOffset - 1 then
              serializeRangeNodes doc cfg ctx f (p ++ [j]) (d + 1)
                acc.1.1 acc.1.2
            else
              let r := serializeToStringRecursive cfg f child true 0 acc.1.2
              ((acc.1.1, r.1), r.2))
      ((rs, st), true)
termination_by (f, 1, 0)

end

/-- `RangeSerializer::SerializeRangeToString` (lines 1363-1455). -/
def serializeRangeToString (doc : DomNode) (cfg : EncoderConfig)
    (fuel : Nat) (r : RangeModel) (w : WalkState) : WalkState × Bool :=
  if r.collapsed
      && (¬ cfg.allowCrossShadowBoundary || ¬ r.mayCrossShadowBoundary) then
    (w, true)
  else
    let commonPath := commonAncestorPath r.startPath r.endPath
    match nodeAt doc commonPath with
    | none => (w, true)
    | some _ =>
      match nodeAt doc r.startPath with
      | none => (w, false)
      | some startNode =>
        match nodeAt doc r.endPath with
        | none => (w, false)
        | some _ =>
          let rs := { w.rs with
            ctxDepthStart := 0, ctxDepthEnd := 0,
            commonInclusiveAncestors := inclusiveAncestorNodes doc commonPath }
          let ctx : RangeWalkCtx := {
            startPath := r.startPath, startOffset := r.startOffset,
            endPath := r.endPath, endOffset := r.endOffset,
            commonPath := commonPath,
            startRootIndex :=
              (r.startPath.length : Int) - (commonPath.length : Int),
            endRootIndex :=
              (r.endPath.length : Int) - (commonPath.length : Int) }
          let cs := serializeRangeContextStart cfg w.rcs
            rs.commonInclusiveAncestors
          let rcs := cs.1
          let st := appendEvents w.st cs.2
          if r.startPath == r.endPath && startNode.isTextNode then
            if hasInvisibleParentAndShouldBeSkipped doc cfg r.startPath then
              ({ rs := rs, rcs := rcs, st := st }, true)
            else
              let st := appendEvents st (nsSerializeTextNode cfg startNode
                (r.startOffset : Int) (r.endOffset : Int))
              let ce := serializeRangeContextEnd cfg rcs
              ({ rs := rs, rcs := ce.1, st := appendEvents st ce.2 }, true)
          else
            let rn := serializeRangeNodes doc cfg ctx fuel commonPath 0 rs st
            if ¬ rn.2 then
              ({ rs := rn.1.1, rcs := rcs, st := rn.1.2 }, false)
            else
              let ce := serializeRangeContextEnd cfg rcs
              ({ rs := rn.1.1, rcs := ce.1,
                 st := appendEvents rn.1.2 ce.2 }, true)

theorem commonAncestorPath_self (p : List Nat) :
    commonAncestorPath p p = p := by
  induction p with
  | nil => rfl
  | cons i q ih => rw [commonAncestorPath, if_pos rfl, ih]

/-- With the base strategy (include nothing, immediate count `-1`) the
context start pushes an empty emitted-ancestor list and emits nothing. -/
theorem contextStart_base (cfg : EncoderConfig) (rcs : RangeCtxState)
    (arr : List DomNode) (hrnc : cfg.rnc = baseRangeNodeContext)
    (hdis : rcs.disableContextSerialize = false) :
    serializeRangeContextStart cfg rcs arr
      = ({ rcs with rangeContexts := rcs.rangeContexts ++ [[]] }, []) := by
  rw [serializeRangeContextStart, if_neg (by simp [hdis])]
  have hfold : ∀ (l : List Nat) (acc : List DomNode × List SerialEvent),
      l.foldl (fun acc i =>
        match arr.get? i with
        | none => acc
        | some node =>
          if cfg.rnc.includeInContext node
              || (i : Int) < cfg.rnc.getImmediateContextCount arr then
            (acc.1 ++ [node], acc.2 ++ serializeNodeStart cfg node 0 (-1) none)
          else acc) acc = acc := by
    intro l
    induction l with
    | nil => intro acc; rfl
    | cons i tl ih =>
      intro acc
      rw [List.foldl_cons]
      have hstep : (match arr.get? i with
          | none => acc
          | some node =>
            if cfg.rnc.includeInContext node
                || (i : Int) < cfg.rnc.getImmediateContextCount arr then
              (acc.1 ++ [node], acc.2 ++ serializeNodeStart cfg node 0 (-1) none)
            else acc) = acc := by
        cases arr.get? i with
        | none => rfl
        | some node =>
          rw [hrnc]
          simp only [baseRangeNodeContext]
          rw [if_neg]
          simp only [Bool.false_or, decide_eq_true_eq]
          omega
      rw [hstep]
      exact ih acc
  dsimp only
  rw [hfold]

theorem contextStart_preserves (cfg : EncoderConfig) (rcs : RangeCtxState)
    (arr : List DomNode) :
    (serializeRangeContextStart cfg rcs arr).1.assertFailed
        = rcs.assertFailed ∧
      (serializeRangeContextStart cfg rcs arr).1.disableContextSerialize
          = rcs.disableContextSerialize ∧
        (rcs.disableContextSerialize = false →
          (serializeRangeContextStart cfg rcs arr).1.rangeContexts ≠ []) := by
  rw [serializeRangeContextStart]
  by_cases h : rcs.disableContextSerialize
  · rw [if_pos h]
    exact ⟨rfl, rfl, fun hf => absurd h (by simp [hf])⟩
  · rw [if_neg h]
    exact ⟨rfl, rfl, fun _ => by simp⟩

theorem contextEnd_preserves (cfg : EncoderConfig) (rcs : RangeCtxState)
    (h : rcs.rangeContexts ≠ [] ∨ rcs.disableContextSerialize = true) :
    (serializeRangeContextEnd cfg rcs).1.assertFailed = rcs.assertFailed := by
  rw [serializeRangeContextEnd]
  by_cases hd : rcs.disableContextSerialize
  · rw [if_pos hd]
  · rw [if_neg hd]
    cases hg : rcs.rangeContexts.getLast? with
    | none =>
      rcases h with h | h
      · exact absurd (List.getLast?_eq_none.mp hg) h
      · exact absurd h hd
    | some ctxList => rfl

/-- `SerializeRangeToString` never fires the context-stack assertion:
every path through it calls `SerializeRangeContextEnd` only after a
matching `SerializeRangeContextStart`. -/
theorem rangeToString_preserves_assert (doc : DomNode)
    (cfg : EncoderConfig) (fuel : Nat) (r : RangeModel) (w : WalkState) :
    (serializeRangeToString doc cfg fuel r w).1.rcs.assertFailed
      = w.rcs.assertFailed := by
  have hcs := contextStart_preserves cfg w.rcs
    (inclusiveAncestorNodes doc (commonAncestorPath r.startPath r.endPath))
  have hend : (serializeRangeContextEnd cfg
      (serializeRangeContextStart cfg w.rcs
        (inclusiveAncestorNodes doc
          (commonAncestorPath r.startPath r.endPath))).1).1.assertFailed
      = w.rcs.assertFailed := by
    rw [contextEnd_preserves, hcs.1]
    by_cases hd : w.rcs.disableContextSerialize
    · right
      rw [hcs.2.1]
      exact hd
    · left
      exact hcs.2.2 (by simpa using hd)
  rw [serializeRangeToString]
  dsimp only
  repeat' split
  all_goals first
    | rfl
    | exact hcs.1
    | exact hend

/-- C6: the range-context stack is balanced.  With the disable flag
clear, `SerializeRangeContextStart` pushes exactly one emitted-ancestor
list, and `SerializeRangeContextEnd` pops exactly the most recent one
and emits its end tags in reverse order; with the disable flag set both
calls succeed leaving the stack untouched; ending on an empty stack
while enabled fires the fatal assertion, and `SerializeRangeToString`
(whose every path ends a context only after starting one) never fires
it. -/
theorem c6_range_context_stack_discipline (cfg : EncoderConfig)
    (rcs : RangeCtxState) (arr : List DomNode) :
    (rcs.disableContextSerialize = false →
        (serializeRangeContextStart cfg rcs arr).1.rangeContexts.length
            = rcs.rangeContexts.length + 1 ∧
          (serializeRangeContextStart cfg rcs arr).1.rangeContexts.dropLast
            = rcs.rangeContexts) ∧
    (rcs.disableContextSerialize = false →
      ∀ pre ctxList, rcs.rangeContexts = pre ++ [ctxList] →
        serializeRangeContextEnd cfg rcs
          = ({ rcs with rangeContexts := pre },
             ctxList.reverse.foldl
               (fun acc node => acc ++ serializeNodeEnd cfg node none) [])) ∧
    (rcs.disableContextSerialize = true →
        serializeRangeContextStart cfg rcs arr = (rcs, []) ∧
        serializeRangeContextEnd cfg rcs = (rcs, [])) ∧
    (rcs.disableContextSerialize = false → rcs.rangeContexts = [] →
        (serializeRangeContextEnd cfg rcs).1.assertFailed = true) ∧
    (∀ doc fuel r w,
        (serializeRangeToString doc cfg fuel r w).1.rcs.assertFailed
          = w.rcs.assertFailed) := by
  refine ⟨?_, ?_, ?_, ?_, fun doc fuel r w => rangeToString_preserves_assert doc cfg fuel r w⟩
  · intro hdis
    rw [serializeRangeContextStart, if_neg (by simp [hdis])]
    constructor
    · simp
    · simp
  · intro hdis pre ctxList hstack
    rw [serializeRangeContextEnd, if_neg (by simp [hdis]), hstack]
    rw [List.getLast?_concat]
    simp only [List.dropLast_concat]
  · intro hdis
    constructor
    · rw [serializeRangeContextStart, if_pos (by simp [hdis])]
    · rw [serializeRangeContextEnd, if_pos (by simp [hdis])]
  · intro hdis hempty
    rw [serializeRangeContextEnd, if_neg (by simp [hdis]), hempty]
    rfl

/-- Concrete state for the C6 witness. -/
def rcsWitness : RangeCtxState :=
  { disableContextSerialize := false,
    rangeContexts := [[DomNode.element Tag.b false false []]],
    assertFailed := false }

/-- Configuration with the base strategy, every flag off, no fixup, and
a writer rendering nothing. -/
def cfgWitness : EncoderConfig :=
  { nodeFixup := none,
    skipInvisibleContent := false,
    outputPreformatted := false,
    outputDropInvisibleBreak := false,
    allowCrossShadowBoundary := false,
    invisible := fun _ => false,
    unselectable := fun _ => false,
    invisibleBreak := fun _ => false,
    noFrame := fun _ => false,
    render := fun _ => [],
    rnc := baseRangeNodeContext }

theorem c6_range_context_stack_discipline_witness :
    (serializeRangeContextStart cfgWitness rcsWitness []).1.rangeContexts.length
        = rcsWitness.rangeContexts.length + 1 ∧
      serializeRangeContextEnd cfgWitness rcsWitness
        = ({ rcsWitness with rangeContexts := [] },
           [DomNode.element Tag.b false false []].reverse.foldl
             (fun acc node => acc ++ serializeNodeEnd cfgWitness node none) []) :=
  ⟨((c6_range_context_stack_discipline cfgWitness rcsWitness []).1 rfl).1,
   (c6_range_context_stack_discipline cfgWitness rcsWitness []).2.1 rfl
     [] [DomNode.element Tag.b false false []] rfl⟩

/-- C3: a collapsed range that is not a shadow-crossing range with
cross-shadow traversal enabled makes `SerializeRangeToString` return
success having emitted nothing (the whole state is untouched). -/
theorem c3_collapsed_range_serializes_nothing (doc : DomNode)
    (cfg : EncoderConfig) (fuel : Nat) (r : RangeModel) (w : WalkState)
    (hcol : r.collapsed = true)
    (hshadow : cfg.allowCrossShadowBoundary = false
      ∨ r.mayCrossShadowBoundary = false) :
    serializeRangeToString doc cfg fuel r w = (w, true) := by
  rw [serializeRangeToString, if_pos]
  rw [hcol, Bool.true_and]
  rcases hshadow with h | h <;> simp [h]

theorem c3_collapsed_range_serializes_nothing_witness :
    serializeRangeToString (DomNode.text false ['a']) cfgWitness 5
        ⟨[], 1, [], 1, false⟩
        ⟨⟨0, 0, false, []⟩, ⟨false, [], false⟩, ⟨[], none⟩⟩
      = (⟨⟨0, 0, false, []⟩, ⟨false, [], false⟩, ⟨[], none⟩⟩, true) :=
  c3_collapsed_range_serializes_nothing (DomNode.text false ['a']) cfgWitness 5
    ⟨[], 1, [], 1, false⟩ ⟨⟨0, 0, false, []⟩, ⟨false, [], false⟩, ⟨[], none⟩⟩
    (by decide) (Or.inl rfl)

/-- C1: a node that at recursion depth `d` is neither the start
boundary's nor the end boundary's inclusive ancestor at that depth is
fully contained: `SerializeRangeNodes` produces for it exactly the
result of `NodeSerializer::SerializeToStringRecursive` serializing the
node alone with its root included, and leaves the range-walk bookkeeping
(`mContextInfoDepth`, `mHaltRangeHint`) unchanged. -/
theorem c1_fully_contained_defers_to_node_serializer (doc : DomNode)
    (cfg : EncoderConfig) (ctx : RangeWalkCtx) (f : Nat) (p : List Nat)
    (d : Nat) (rs : RangeSer) (st : EncState) (n : DomNode)
    (hnode : nodeAt doc p = some n)
    (hs : startContentAt ctx d ≠ some p)
    (he : endContentAt ctx d ≠ some p) :
    serializeRangeNodes doc cfg ctx (f + 1) p d rs st
      = ((rs, (serializeToStringRecursive cfg f n true 0 st).1),
         (serializeToStringRecursive cfg f n true 0 st).2) := by
  rw [serializeRangeNodes]
  simp only [hnode]
  by_cases hinv : isInvisibleNodeAndShouldBeSkipped cfg n = true
  · rw [if_pos hinv]
    cases f with
    | zero => rfl
    | succ g =>
      rw [serializeToStringRecursive]
      have : ¬ (0 > 0 ∧ 0 ≤ eventsLength cfg st.events) := by omega
      rw [if_neg (by omega), if_pos hinv]
  · rw [if_neg hinv, if_pos ⟨hs, he⟩]

theorem c1_fully_contained_defers_to_node_serializer_witness :
    serializeRangeNodes (DomNode.element Tag.body false false
        [DomNode.text false ['a'], DomNode.element Tag.b false false [],
         DomNode.text false ['b']])
      cfgWitness ⟨[0], 0, [2], 1, [], 1, 1⟩ 3 [1] 1 ⟨0, 0, false, []⟩ ⟨[], none⟩
      = ((⟨0, 0, false, []⟩,
          (serializeToStringRecursive cfgWitness 2
            (DomNode.element Tag.b false false []) true 0 ⟨[], none⟩).1),
         (serializeToStringRecursive cfgWitness 2
            (DomNode.element Tag.b false false []) true 0 ⟨[], none⟩).2) :=
  c1_fully_contained_defers_to_node_serializer
    (DomNode.element Tag.body false false
      [DomNode.text false ['a'], DomNode.element Tag.b false false [],
       DomNode.text false ['b']])
    cfgWitness ⟨[0], 0, [2], 1, [], 1, 1⟩ 2 [1] 1 ⟨0, 0, false, []⟩ ⟨[], none⟩
    (DomNode.element Tag.b false false []) rfl (by decide) (by decide)

theorem contextStart_disabled (cfg : EncoderConfig) (rcs : RangeCtxState)
    (arr : List DomNode) (h : rcs.disableContextSerialize = true) :
    serializeRangeContextStart cfg rcs arr = (rcs, []) := by
  rw [serializeRangeContextStart, if_pos h]

theorem contextEnd_disabled (cfg : EncoderConfig) (rcs : RangeCtxState)
    (h : rcs.disableContextSerialize = true) :
    serializeRangeContextEnd cfg rcs = (rcs, []) := by
  rw [serializeRangeContextEnd, if_pos h]

/-- Popping immediately after pushing an empty emitted-ancestor list
restores the state and emits nothing. -/
theorem contextEnd_after_empty_push (cfg : EncoderConfig)
    (rcs : RangeCtxState) (h : rcs.disableContextSerialize = false) :
    serializeRangeContextEnd cfg
        { rcs with rangeContexts := rcs.rangeContexts ++ [[]] }
      = (rcs, []) := by
  rw [serializeRangeContextEnd, if_neg (by simp [h])]
  simp only [List.getLast?_concat, List.dropLast_concat, List.reverse_nil,
    List.foldl_nil]

/-- C2: for a non-collapsed range whose two boundaries lie in the same
text node, `SerializeRangeToString` (with the base range-node-context,
invisibility filtering off, no fixup hook and cross-shadow traversal
off) emits exactly one text event covering `[startOffset, endOffset)` of
that node and nothing else, and the text the writer renders for it is
exactly that window of the node's characters; a collapsed range emits
nothing. -/
theorem c2_single_text_node_range (doc : DomNode) (cfg : EncoderConfig)
    (fuel : Nat) (p : List Nat) (ed : Bool) (data : List Char)
    (s e : Nat) (mc : Bool) (w : WalkState)
    (hnode : nodeAt doc p = some (DomNode.text ed data))
    (hrnc : cfg.rnc = baseRangeNodeContext)
    (hskip : cfg.skipInvisibleContent = false)
    (hfix : cfg.nodeFixup = none)
    (hcross : cfg.allowCrossShadowBoundary = false) :
    (s = e →
      serializeRangeToString doc cfg fuel ⟨p, s, p, e, mc⟩ w = (w, true)) ∧
    (s ≠ e →
      serializeRangeToString doc cfg fuel ⟨p, s, p, e, mc⟩ w
        = (⟨⟨0, 0, w.rs.haltRangeHint, inclusiveAncestorNodes doc p⟩,
            w.rcs,
            appendEvents w.st
              [SerialEvent.textEvt data (s : Int) (e : Int)]⟩, true)) ∧
    ([SerialEvent.textEvt data (s : Int) (e : Int)].flatMap emittedText
      = (data.take e).drop s) := by
  refine ⟨?_, ?_, ?_⟩
  · intro hse
    subst hse
    rw [serializeRangeToString, if_pos]
    simp [RangeModel.collapsed, hcross]
  · intro hne
    rw [serializeRangeToString, if_neg (by simp [RangeModel.collapsed, hne])]
    dsimp only
    rw [commonAncestorPath_self]
    simp only [hnode]
    have htext : nsSerializeTextNode cfg (DomNode.text ed data)
        (s : Int) (e : Int) = [SerialEvent.textEvt data (s : Int) (e : Int)] := by
      rw [nsSerializeTextNode, serializeNodeStart, serializeNodeEnd]
      simp [isInvisibleNodeAndShouldBeSkipped, hskip, determineFixupNode, hfix]
    have hinvpar : hasInvisibleParentAndShouldBeSkipped doc cfg p = false := by
      rw [hasInvisibleParentAndShouldBeSkipped.eq_def]
      simp [hskip]
    simp only [DomNode.isTextNode, beq_self_eq_true, Bool.true_and, hinvpar,
      Bool.false_eq_true, if_false]
    by_cases hd : w.rcs.disableContextSerialize = true
    · rw [contextStart_disabled cfg w.rcs _ hd]
      rw [contextEnd_disabled cfg w.rcs hd]
      simp [appendEvents, htext]
    · have hdf : w.rcs.disableContextSerialize = false := by
        simpa using hd
      rw [contextStart_base cfg w.rcs _ hrnc hdf]
      rw [contextEnd_after_empty_push cfg w.rcs hdf]
      simp [appendEvents, htext]
  · have he0 : ¬ ((e : Int) < 0) := by omega
    simp [emittedText, he0]

/-- Document and state for the C2 witness: `<body>` with text `hello`
in a `<b>` child; the range selects characters 1 to 4. -/
def c2Doc : DomNode :=
  DomNode.element Tag.body false false
    [DomNode.element Tag.b false false
      [DomNode.text false ['h', 'e', 'l', 'l', 'o']]]

def c2WalkStart : WalkState :=
  ⟨⟨0, 0, false, []⟩, ⟨false, [], false⟩, ⟨[], none⟩⟩

theorem c2_single_text_node_range_witness :
    serializeRangeToString c2Doc cfgWitness 7 ⟨[0, 0], 1, [0, 0], 4, false⟩
        c2WalkStart
      = (⟨⟨0, 0, c2WalkStart.rs.haltRangeHint,
             inclusiveAncestorNodes c2Doc [0, 0]⟩,
           c2WalkStart.rcs,
           appendEvents c2WalkStart.st
             [SerialEvent.textEvt ['h', 'e', 'l', 'l', 'o'] 1 4]⟩, true) ∧
    [SerialEvent.textEvt ['h', 'e', 'l', 'l', 'o'] (1 : Int) (4 : Int)].flatMap
        emittedText
      = ((['h', 'e', 'l', 'l', 'o'].take 4).drop 1) :=
  ⟨(c2_single_text_node_range c2Doc cfgWitness 7 [0, 0] false
      ['h', 'e', 'l', 'l', 'o'] 1 4 false c2WalkStart rfl rfl rfl rfl
      rfl).2.1 (by decide),
   (c2_single_text_node_range c2Doc cfgWitness 7 [0, 0] false
      ['h', 'e', 'l', 'l', 'o'] 1 4 false c2WalkStart rfl rfl rfl rfl
      rfl).2.2⟩

/-! ## Selection walk and scope dispatch -/

/-- `EncodingScope` (lines 172-185).  The node is held directly (the
C++ holds a node pointer); selection and range refer into the document
by paths. -/
structure EncodingScope where
  selection : Option (List RangeModel)
  range : Option RangeModel
  node : Option DomNode
  nodeIsContainer : Bool

/-- `mEncodingScope = {}`. -/
def EncodingScope.empty : EncodingScope := ⟨none, none, none, false⟩

/-- `ParentIsTR` (lines 569-575). -/
def parentIsTR (doc : DomNode) (p : List Nat) : Bool :=
  match p with
  | [] => false
  | _ :: _ =>
    match nodeAt doc p.dropLast with
    | some (DomNode.element Tag.tr _ _ _) => true
    | _ => false

/-- `nsContentUtils::GetInclusiveAncestors(node->GetParentNode(), …)`;
empty for a parentless node. -/
def ancestorsOfParent (doc : DomNode) (p : List Nat) : List DomNode :=
  match p with
  | [] => []
  | _ :: _ => inclusiveAncestorNodes doc p.dropLast

/-- `SerializeNodeEnd(*node)` for a node referenced by path. -/
def endEventsAt (doc : DomNode) (cfg : EncoderConfig) (pn : List Nat) :
    List SerialEvent :=
  match nodeAt doc pn with
  | some pnNode => serializeNodeEnd cfg pnNode none
  | none => []

/-- One iteration of the `SerializeSelection` loop (lines 610-666)
without the `firstRangeStartDepth` capture: resolve the range's start
container, handle the consecutive-`<tr>` special case (entering a run of
`<tr>`-container ranges serializes the surrounding context once and
disables context serialization; leaving the run re-enables it and ends
the context), then serialize the range.  Returns the new walk state and
`prevNode`. -/
def serializeSelectionStepCore (doc : DomNode) (cfg : EncoderConfig)
    (fuel : Nat) (r : RangeModel) (w0 : WalkState)
    (prevNode : Option (List Nat)) :
    (WalkState × Option (List Nat)) × Bool :=
  match nodeAt doc r.startPath with
  | none => ((w0, prevNode), false)
  | some node =>
    let p := r.startPath
    let afterTr : WalkState × Option (List Nat) :=
      if some p ≠ prevNode then
        let w :=
          match prevNode with
          | some pn =>
            { w0 with st := appendEvents w0.st (endEventsAt doc cfg pn) }
          | none => w0
        if node.tagOf = some Tag.tr ∧ ¬ parentIsTR doc p then
          let w2 :=
            if prevNode = none then
              let ancestors := ancestorsOfParent doc p
              let cs := serializeRangeContextStart cfg w.rcs ancestors
              { rs := { w.rs with commonInclusiveAncestors := ancestors },
                rcs := { cs.1 with disableContextSerialize := true },
                st := appendEvents w.st cs.2 }
            else w
          ({ w2 with
             st := appendEvents w2.st (serializeNodeStart cfg node 0 (-1) none) },
           some p)
        else
          match prevNode with
          | some pn =>
            let rcs := { w.rcs with disableContextSerialize := false }
            let rs := { w.rs with
              commonInclusiveAncestors := ancestorsOfParent doc pn }
            let ce := serializeRangeContextEnd cfg rcs
            ({ rs := rs, rcs := ce.1, st := appendEvents w.st ce.2 }, none)
          | none => (w, prevNode)
      else (w0, prevNode)
    let rr := serializeRangeToString doc cfg fuel r afterTr.1
    ((rr.1, afterTr.2), rr.2)

/-- Loop-carried state of `SerializeSelection`: the walk state, the
previous range's start container (`prevNode`), and the captured
`firstRangeStartDepth` (`none` until iteration 0 has completed). -/
structure SelAcc where
  w : WalkState
  prevNode : Option (List Nat)
  firstDepth : Option Nat

/-- One full iteration of the `SerializeSelection` loop, including the
`i == 0` capture of `firstRangeStartDepth` (lines 667-669), which runs
only when the iteration succeeded (an `NS_ENSURE_SUCCESS` return skips
it). -/
def serializeSelectionStep (doc : DomNode) (cfg : EncoderConfig)
    (fuel : Nat) (r : RangeModel) (acc : SelAcc) : SelAcc × Bool :=
  let core := serializeSelectionStepCore doc cfg fuel r acc.w acc.prevNode
  if ¬ core.2 then
    ({ w := core.1.1, prevNode := core.1.2, firstDepth := acc.firstDepth },
     false)
  else
    ({ w := core.1.1, prevNode := core.1.2,
       firstDepth :=
         match acc.firstDepth with
         | none => some core.1.1.rs.ctxDepthStart
         | some d0 => some d0 }, true)

def serializeSelectionLoop (doc : DomNode) (cfg : EncoderConfig)
    (fuel : Nat) : List RangeModel → SelAcc → SelAcc × Bool
  | [], acc => (acc, true)
  | r :: rest, acc =>
    let sr := serializeSelectionStep doc cfg fuel r acc
    if ¬ sr.2 then (sr.1, false)
    else serializeSelectionLoop doc cfg fuel rest sr.1

/-- `nsDocumentEncoder::SerializeSelection` (lines 601-692): loop over
the ranges; on success restore `mContextInfoDepth.mStart` to the first
range's value (0 when there was no range), then close any pending
`<tr>` run and clear the disable flag. -/
def serializeSelection (doc : DomNode) (cfg : EncoderConfig) (fuel : Nat)
    (ranges : List RangeModel) (w : WalkState) : WalkState × Bool :=
  let lr := serializeSelectionLoop doc cfg fuel ranges ⟨w, none, none⟩
  if ¬ lr.2 then (lr.1.w, false)
  else
    let acc := lr.1
    let w1 : WalkState :=
      ⟨{ acc.w.rs with ctxDepthStart := acc.firstDepth.getD 0 },
       acc.w.rcs, acc.w.st⟩
    match acc.prevNode with
    | some pn =>
      let st := appendEvents w1.st (endEventsAt doc cfg pn)
      let rcs := { w1.rcs with disableContextSerialize := false }
      let rs := { w1.rs with
        commonInclusiveAncestors := ancestorsOfParent doc pn }
      let ce := serializeRangeContextEnd cfg rcs
      (⟨rs, { ce.1 with disableContextSerialize := false },
        appendEvents st ce.2⟩, true)
    | none =>
      (⟨w1.rs, { w1.rcs with disableContextSerialize := false }, w1.st⟩,
       true)

/-- A successful selection step starting with no captured depth captures
the depth of its own resulting walk state. -/
theorem step_captures_firstDepth (doc : DomNode) (cfg : EncoderConfig)
    (fuel : Nat) (r : RangeModel) (acc : SelAcc)
    (h0 : acc.firstDepth = none)
    (hok : (serializeSelectionStep doc cfg fuel r acc).2 = true) :
    (serializeSelectionStep doc cfg fuel r acc).1.firstDepth
      = some (serializeSelectionStep doc cfg fuel r acc).1.w.rs.ctxDepthStart := by
  rw [serializeSelectionStep] at hok ⊢
  by_cases hc : (serializeSelectionStepCore doc cfg fuel r acc.w acc.prevNode).2 = true
  · rw [if_neg (not_not_intro hc)]
    simp [h0]
  · rw [if_pos (by simpa using hc)] at hok
    cases hok

/-- A selection step never clears a captured depth. -/
theorem step_keeps_firstDepth (doc : DomNode) (cfg : EncoderConfig)
    (fuel : Nat) (r : RangeModel) (acc : SelAcc) (d : Nat)
    (h0 : acc.firstDepth = some d) :
    (serializeSelectionStep doc cfg fuel r acc).1.firstDepth = some d := by
  rw [serializeSelectionStep]
  by_cases hc : (serializeSelectionStepCore doc cfg fuel r acc.w acc.prevNode).2 = true
  · rw [if_neg (not_not_intro hc)]
    simp [h0]
  · rw [if_pos (by simpa using hc)]
    exact h0

/-- The selection loop preserves a captured first-range depth. -/
theorem loop_keeps_firstDepth (doc : DomNode) (cfg : EncoderConfig)
    (fuel : Nat) :
    ∀ (ranges : List RangeModel) (acc : SelAcc) (d : Nat),
      acc.firstDepth = some d →
      (serializeSelectionLoop doc cfg fuel ranges acc).1.firstDepth
        = some d := by
  intro ranges
  induction ranges with
  | nil => intro acc d h0; exact h0
  | cons r rest ih =>
    intro acc d h0
    rw [serializeSelectionLoop]
    split
    next => exact step_keeps_firstDepth doc cfg fuel r acc d h0
    next => exact ih _ d (step_keeps_firstDepth doc cfg fuel r acc d h0)

/-- C7: after a successful multi-range selection walk (one or more
ranges), the reported start-context-depth equals the start-context-depth
computed while serializing the first range; the depths of later ranges
are not used for start-depth reporting. -/
theorem c7_first_range_start_depth (doc : DomNode) (cfg : EncoderConfig)
    (fuel : Nat) (r0 : RangeModel) (rest : List RangeModel) (w : WalkState)
    (hok : (serializeSelection doc cfg fuel (r0 :: rest) w).2 = true) :
    (serializeSelection doc cfg fuel (r0 :: rest) w).1.rs.ctxDepthStart
      = (serializeSelectionStep doc cfg fuel r0
          ⟨w, none, none⟩).1.w.rs.ctxDepthStart := by
  by_cases hs : (serializeSelectionStep doc cfg fuel r0 ⟨w, none, none⟩).2 = true
  · have hcap := step_captures_firstDepth doc cfg fuel r0 ⟨w, none, none⟩ rfl hs
    have hloop := loop_keeps_firstDepth doc cfg fuel rest
      (serializeSelectionStep doc cfg fuel r0 ⟨w, none, none⟩).1 _ hcap
    rw [serializeSelection, serializeSelectionLoop] at hok ⊢
    rw [if_neg (not_not_intro hs)] at hok ⊢
    by_cases hl : (serializeSelectionLoop doc cfg fuel rest
        (serializeSelectionStep doc cfg fuel r0 ⟨w, none, none⟩).1).2 = true
    · rw [if_neg (not_not_intro hl)] at hok ⊢
      dsimp only
      cases hp : (serializeSelectionLoop doc cfg fuel rest
          (serializeSelectionStep doc cfg fuel r0 ⟨w, none, none⟩).1).1.prevNode with
      | none => simp [hloop]
      | some pn => simp [hloop]
    · rw [if_pos (by simpa using hl)] at hok
      cases hok
  · rw [serializeSelection, serializeSelectionLoop] at hok
    rw [if_pos hs] at hok
    simp at hok

/-- Document and selection for the C7 witness: two ranges inside
`<body><b>hello</b><b>world</b></body>`. -/
def c7Doc : DomNode :=
  DomNode.element Tag.body false false
    [DomNode.element Tag.b false false
      [DomNode.text false ['h', 'i']],
     DomNode.element Tag.b false false
      [DomNode.text false ['y', 'o']]]

theorem c7_first_range_start_depth_witness :
    (serializeSelection c7Doc cfgWitness 9
        [⟨[0, 0], 0, [0, 0], 2, false⟩, ⟨[1, 0], 0, [1, 0], 2, false⟩]
        c2WalkStart).1.rs.ctxDepthStart
      = (serializeSelectionStep c7Doc cfgWitness 9 ⟨[0, 0], 0, [0, 0], 2, false⟩
          ⟨c2WalkStart, none, none⟩).1.w.rs.ctxDepthStart :=
  c7_first_range_start_depth c7Doc cfgWitness 9 ⟨[0, 0], 0, [0, 0], 2, false⟩
    [⟨[1, 0], 0, [1, 0], 2, false⟩] c2WalkStart (by decide)

/-- `nsDocumentEncoder::SerializeNode` (lines 694-710): the iterative
walk is used only when there is no fixup hook, the skip-invisible flag
is clear, no text streamer is active, and the node scope was set as a
container; otherwise the recursive walk runs, serializing the root
exactly when the scope was set via `SetNode` (not as container). -/
def serializeNode (cfg : EncoderConfig) (scope : EncodingScope)
    (st : EncState) : EncState × Bool :=
  match scope.node with
  | none => (st, false)
  | some node =>
    if cfg.nodeFixup.isNone && !cfg.skipInvisibleContent
        && st.streamer.isNone && scope.nodeIsContainer then
      serializeToStringIterative cfg node st
    else
      serializeToStringRecursive cfg (domFuel node) node
        (!scope.nodeIsContainer) 0 st

/-- `nsDocumentEncoder::SerializeWholeDocument` (lines 712-723): no
scope may be populated; emits the document-start event, then the
recursive walk over the document with the max-length budget. -/
def serializeWholeDocument (doc : DomNode) (cfg : EncoderConfig)
    (scope : EncodingScope) (maxLength : Nat) (st : EncState) :
    EncState × Bool :=
  if scope.selection.isSome || scope.range.isSome || scope.node.isSome then
    (st, false)
  else
    serializeToStringRecursive cfg (domFuel doc) doc true maxLength
      (appendEvents st [SerialEvent.documentStart])

/-- `nsDocumentEncoder::SerializeDependingOnScope` (lines 584-599):
dispatch on the populated scope variant, then clear the scope. -/
def serializeDependingOnScope (doc : DomNode) (cfg : EncoderConfig)
    (scope : EncodingScope) (maxLength : Nat) (w : WalkState) :
    (WalkState × EncodingScope) × Bool :=
  let r :=
    match scope.selection with
    | some ranges => serializeSelection doc cfg (domFuel doc) ranges w
    | none =>
      match scope.range with
      | some range => serializeRangeToString doc cfg (domFuel doc) range w
      | none =>
        match scope.node with
        | some _ =>
          let nr := serializeNode cfg scope w.st
          (⟨w.rs, w.rcs, nr.1⟩, nr.2)
        | none =>
          let dr := serializeWholeDocument doc cfg scope maxLength w.st
          (⟨w.rs, w.rcs, dr.1⟩, dr.2)
  ((r.1, EncodingScope.empty), r.2)

/-- The Node-scope dispatch as the claim words it (iterative iff no
fixup hook, skip-invisible flag clear, and no active streamer), for
comparison with `serializeNode`. -/
def serializeNodeClaimed (cfg : EncoderConfig) (scope : EncodingScope)
    (st : EncState) : EncState × Bool :=
  match scope.node with
  | none => (st, false)
  | some node =>
    if cfg.nodeFixup.isNone && !cfg.skipInvisibleContent
        && st.streamer.isNone then
      serializeToStringIterative cfg node st
    else
      serializeToStringRecursive cfg (domFuel node) node
        (!scope.nodeIsContainer) 0 st

/-- C8 as stated is false: with no fixup hook, the skip-invisible flag
clear and no streamer, but a node scope set via `SetNode` (so
`mNodeIsContainer` is false), `SerializeNode` takes the recursive walk
(serializing the root), while the claim's dispatch would take the
iterative walk (which never serializes the root) — and the two produce
different output on `<b></b>`. -/
theorem c8_dispatch_counterexample :
    serializeNode cfgWitness
        ⟨none, none, some (DomNode.element Tag.b false false []), false⟩
        ⟨[], none⟩
      ≠ serializeNodeClaimed cfgWitness
        ⟨none, none, some (DomNode.element Tag.b false false []), false⟩
        ⟨[], none⟩ := by decide

/-- C8 amended: the scope dispatch sends Selection to the selection
walk, Range to `SerializeRangeToString`, Node to `SerializeNode`, and an
empty scope to the whole-document walk whose first event is the
document-start event; and for a Node scope the iterative walk is taken
if and only if there is no fixup hook, the skip-invisible flag is clear,
no text streamer is active, AND the node scope was set as a container
(`SetContainerNode`). -/
theorem c8_dispatch_amended (doc : DomNode) (cfg : EncoderConfig)
    (scope : EncodingScope) (maxLength : Nat) (w : WalkState) :
    (∀ ranges, scope.selection = some ranges →
      serializeDependingOnScope doc cfg scope maxLength w
        = (((serializeSelection doc cfg (domFuel doc) ranges w).1,
            EncodingScope.empty),
           (serializeSelection doc cfg (domFuel doc) ranges w).2)) ∧
    (∀ range, scope.selection = none → scope.range = some range →
      serializeDependingOnScope doc cfg scope maxLength w
        = (((serializeRangeToString doc cfg (domFuel doc) range w).1,
            EncodingScope.empty),
           (serializeRangeToString doc cfg (domFuel doc) range w).2)) ∧
    (scope.selection = none → scope.range = none → scope.node.isSome →
      serializeDependingOnScope doc cfg scope maxLength w
        = ((⟨w.rs, w.rcs, (serializeNode cfg scope w.st).1⟩,
            EncodingScope.empty),
           (serializeNode cfg scope w.st).2)) ∧
    (scope.selection = none → scope.range = none → scope.node = none →
      serializeDependingOnScope doc cfg scope maxLength w
        = ((⟨w.rs, w.rcs,
             (serializeToStringRecursive cfg (domFuel doc) doc true maxLength
               (appendEvents w.st [SerialEvent.documentStart])).1⟩,
            EncodingScope.empty),
           (serializeToStringRecursive cfg (domFuel doc) doc true maxLength
             (appendEvents w.st [SerialEvent.documentStart])).2)) ∧
    (∀ node, scope.node = some node →
      serializeNode cfg scope w.st
        = (if cfg.nodeFixup.isNone && !cfg.skipInvisibleContent
              && w.st.streamer.isNone && scope.nodeIsContainer then
             serializeToStringIterative cfg node w.st
           else
             serializeToStringRecursive cfg (domFuel node) node
               (!scope.nodeIsContainer) 0 w.st)) := by
  refine ⟨?_, ?_, ?_, ?_, ?_⟩
  · intro ranges hsel
    rw [serializeDependingOnScope, hsel]
  · intro range hsel hrange
    rw [serializeDependingOnScope, hsel, hrange]
  · intro hsel hrange hnode
    cases hn : scope.node with
    | none => rw [hn] at hnode; cases hnode
    | some node => rw [serializeDependingOnScope, hsel, hrange, hn]
  · intro hsel hrange hnode
    rw [serializeDependingOnScope, hsel, hrange, hnode]
    rw [serializeWholeDocument, if_neg (by simp [hsel, hrange, hnode])]
  · intro node hnode
    rw [serializeNode, hnode]

theorem c8_dispatch_amended_witness :
    serializeDependingOnScope c2Doc cfgWitness
        ⟨none, none, some (DomNode.element Tag.b false false []), false⟩
        0 c2WalkStart
      = ((⟨c2WalkStart.rs, c2WalkStart.rcs,
           (serializeNode cfgWitness
             ⟨none, none, some (DomNode.element Tag.b false false []), false⟩
             c2WalkStart.st).1⟩,
          EncodingScope.empty),
         (serializeNode cfgWitness
           ⟨none, none, some (DomNode.element Tag.b false false []), false⟩
           c2WalkStart.st).2) ∧
    serializeNode cfgWitness
        ⟨none, none, some (DomNode.element Tag.b false false []), false⟩
        c2WalkStart.st
      = serializeToStringRecursive cfgWitness
          (domFuel (DomNode.element Tag.b false false []))
          (DomNode.element Tag.b false false []) true 0 c2WalkStart.st :=
  ⟨(c8_dispatch_amended c2Doc cfgWitness
      ⟨none, none, some (DomNode.element Tag.b false false []), false⟩
      0 c2WalkStart).2.2.1 rfl rfl rfl,
   ((c8_dispatch_amended c2Doc cfgWitness
      ⟨none, none, some (DomNode.element Tag.b false false []), false⟩
      0 c2WalkStart).2.2.2.2 (DomNode.element Tag.b false false []) rfl).trans
     (by decide)⟩

/-! ## Encoder entry points -/

/-- MIME types.  `do_getDocumentTypeSupportedForEncoding` (lines
1585-1595) lists the content types with a registered serializer; the
component registry consulted by `do_CreateInstance` is modelled by that
list. -/
inductive MimeKind where
  | textPlain | textHTML | textXML | applicationXML | applicationXHTML
  | imageSVG | other (n : Nat)
deriving DecidableEq

def mimeSupported : MimeKind → Bool
  | .textPlain | .textHTML | .textXML | .applicationXML
  | .applicationXHTML | .imageSVG => true
  | .other _ => false

/-- Encoder-level state for the entry points: the document, the
encoding scope, the MIME type, whether `SetCharset` installed an output
encoding (`mEncoding`), and the per-pass configuration. -/
structure EncoderState where
  document : Option DomNode
  encodingScope : EncodingScope
  mimeType : MimeKind
  encoding : Option Unit
  cfg : EncoderConfig

/-- `nsDocumentEncoder::EncodeToStringWithMaxLength` (lines 1469-1539).
Returns the output (the writer's events; empty when the pass failed —
the C++ assigns `aOutputString` only on success), the text streamer as
the pass left it, and the status.  Not modelled: the re-entrancy
assertion and scope-exit guard (each call starts and ends with an empty
context stack), the cached-buffer recycling (a memory optimization), and
the serializer `Init` call (`rewriteEncodingDeclaration` has no
observable effect on the event stream); `FlushAndFinish` on the event
writer is infallible. -/
def encodeToStringWithMaxLength (maxLength : Nat) (enc : EncoderState)
    (streamer : Option TextStreamerState) :
    List SerialEvent × Option TextStreamerState × Bool :=
  match enc.document with
  | none => ([], streamer, false)
  | some doc =>
    if ¬ mimeSupported enc.mimeType then ([], streamer, false)
    else
      let w0 : WalkState :=
        ⟨⟨0, 0, false, []⟩, ⟨false, [], false⟩, ⟨[], streamer⟩⟩
      let r := serializeDependingOnScope doc enc.cfg enc.encodingScope
        maxLength w0
      if ¬ r.2 then ([], r.1.1.st.streamer, false)
      else (r.1.1.st.events, r.1.1.st.streamer, true)

/-- `nsDocumentEncoder::EncodeToString` (lines 1464-1467). -/
def encodeToString (enc : EncoderState)
    (streamer : Option TextStreamerState) :
    List SerialEvent × Option TextStreamerState × Bool :=
  encodeToStringWithMaxLength 0 enc streamer

/-- The text the external writer renders for an event list (the
contents of `aOutputString`). -/
def renderEvents (cfg : EncoderConfig) (evs : List SerialEvent) :
    List Char :=
  (evs.map cfg.render).flatten

/-- The streamer state right before the final `ForceFlush` of
`EncodeToStream`: the streamer is created over `buf` and handed to the
pass; `buf` (the streamer's buffer) receives the rendered output only
when `EncodeToString` succeeded — on failure the C++ returns before
appending to `aOutputString`. -/
def encodeToStreamFlushInput (enc : EncoderState) (sink : Sink) :
    TextStreamerState :=
  let ts0 : TextStreamerState :=
    ⟨[], sink, enc.mimeType == MimeKind.textPlain⟩
  let r := encodeToString enc (some ts0)
  let tsAfter := r.2.1.getD ts0
  { tsAfter with outputBuffer := tsAfter.outputBuffer
      ++ (if r.2.2 then renderEvents enc.cfg r.1 else []) }

/-- `nsDocumentEncoder::EncodeToStream` (lines 1541-1570): after the
document and encoding guards, `rv = EncodeToString(buf)` is immediately
followed by `rv = mTextStreamer->ForceFlush()` — the encode status is
overwritten by the flush status, which is what the call returns. -/
def encodeToStream (enc : EncoderState) (sink : Sink) : Sink × Bool :=
  match enc.document with
  | none => (sink, false)
  | some _ =>
    match enc.encoding with
    | none => (sink, false)
    | some _ =>
      let fr := forceFlush (encodeToStreamFlushInput enc sink)
      (fr.1.sink, fr.2)

/-- Modelled from the claim's words, for comparison with the source's
`SerializeToStringRecursive`: the recursive walk with no output-length
budget at all (no `GetOutputLength` query, text end offset always -1). -/
def serializeToStringRecursiveUnbudgeted (cfg : EncoderConfig) :
    Nat → DomNode → Bool → EncState → EncState × Bool
  | 0, _, _, st => (st, true)
  | f + 1, node, serializeRootIn, st =>
    if isInvisibleNodeAndShouldBeSkipped cfg node then (st, true)
    else
      let fix := determineFixupNode cfg.nodeFixup node none
      let maybeFixedNode := fix.1
      let serializeRoot :=
        if cfg.skipInvisibleContent && cfg.unselectable node then false
        else serializeRootIn
      let st :=
        if serializeRoot then
          appendEvents st
            (serializeNodeStart cfg node 0 (-1) (some maybeFixedNode))
        else st
      let childSource := if fix.2 then maybeFixedNode else node
      let r := childSource.childrenList.foldl
        (fun (acc : EncState × Bool) child =>
          if acc.2 then
            serializeToStringRecursiveUnbudgeted cfg f child true acc.1
          else acc)
        (st, true)
      if ¬ r.2 then (r.1, false)
      else
        let st :=
          if serializeRoot then
            appendEvents r.1 (serializeNodeEnd cfg node (some maybeFixedNode))
          else r.1
        match st.streamer with
        | some ts =>
          let fr := flushIfStringLongEnough ts
          ({ st with streamer := some fr.1 }, fr.2)
        | none => (st, true)

/-- C10: `EncodeToString` is exactly `EncodeToStringWithMaxLength`
called with max length 0, and max length 0 disables the output-length
budget entirely: the recursive walk at max length 0 coincides with the
budget-free walk for every node, configuration and state. -/
theorem c10_encodeToString_is_maxLength_zero :
    (∀ enc streamer, encodeToString enc streamer
        = encodeToStringWithMaxLength 0 enc streamer) ∧
    (∀ cfg f node root st,
        serializeToStringRecursive cfg f node root 0 st
          = serializeToStringRecursiveUnbudgeted cfg f node root st) := by
  refine ⟨fun enc streamer => rfl, ?_⟩
  intro cfg f
  induction f with
  | zero => intro node root st; rfl
  | succ g ih =>
    intro node root st
    rw [serializeToStringRecursive, serializeToStringRecursiveUnbudgeted]
    simp only [gt_iff_lt, lt_self_iff_false, false_and, if_false, ih,
      ite_false]

/-- Encoder state for the C4 counterexample: a valid document and
encoding, but a range scope whose start container path does not resolve,
so the serialization pass inside `EncodeToString` fails. -/
def c4Enc : EncoderState :=
  { document := some (DomNode.element Tag.body false false []),
    encodingScope := ⟨none, some ⟨[99], 0, [], 0, false⟩, none, false⟩,
    mimeType := MimeKind.textHTML,
    encoding := some (),
    cfg := cfgWitness }

/-- C4 as stated is false: here the serialization pass inside
`EncodeToString` fails (the range's start container cannot be resolved,
`NS_ENSURE_TRUE(startContainer)`), yet `EncodeToStream` returns success,
because its status is the status of the final `ForceFlush`, which
succeeds — the earlier failure is masked. -/
theorem c4_error_masking_counterexample :
    (encodeToString c4Enc
        (some ⟨[], { writes := [], failSchedule := [] }, false⟩)).2.2 = false
      ∧ encodeToStream c4Enc { writes := [], failSchedule := [] }
          = ({ writes := [], failSchedule := [] }, true) := by decide

/-- C4 amended: with the document and encoding guards passed,
`EncodeToStream` returns exactly the status of the final `ForceFlush`;
the status of the encode pass is discarded (`rv` is overwritten), so an
encode failure is reported only if the final flush also fails. -/
theorem c4_stream_returns_flush_status (enc : EncoderState) (sink : Sink)
    (hdoc : enc.document.isSome) (henc : enc.encoding.isSome) :
    encodeToStream enc sink
      = ((forceFlush (encodeToStreamFlushInput enc sink)).1.sink,
         (forceFlush (encodeToStreamFlushInput enc sink)).2) := by
  rw [encodeToStream]
  cases hd : enc.document with
  | none => rw [hd] at hdoc; cases hdoc
  | some d =>
    cases he : enc.encoding with
    | none => rw [he] at henc; cases henc
    | some e => rfl

theorem c4_stream_returns_flush_status_witness :
    encodeToStream c4Enc { writes := [], failSchedule := [] }
      = ((forceFlush (encodeToStreamFlushInput c4Enc
            { writes := [], failSchedule := [] })).1.sink,
         (forceFlush (encodeToStreamFlushInput c4Enc
            { writes := [], failSchedule := [] })).2) :=
  c4_stream_returns_flush_status c4Enc { writes := [], failSchedule := [] }
    rfl rfl

/-! ## RangePromoter (nsHTMLCopyEncoder), DOM-tree kind -/

/-- A `RawRangeBoundary`: an optionally-set container (by path) and an
offset.  The model covers `TreeKind::DOM` (the flattened-tree variant
requires shadow DOM); an unset boundary has no container. -/
structure RawBoundary where
  container : Option (List Nat)
  offset : Nat
deriving DecidableEq

/-- Copy-encoder configuration: `mIsTextWidget` and the
`dom_serializer_includeCommonAncestor_enabled` static pref. -/
structure CopyEncoderConfig where
  isTextWidget : Bool
  includeCommonAncestorPref : Bool

def isWhitespaceChar (c : Char) : Bool :=
  c = ' ' || c = '\t' || c = '\n' || c = '\r' || c = '\x0c'

/-- `Text::TextStartsWithOnlyWhitespace(offset)`. -/
def textStartsWithOnlyWhitespace (data : List Char) (offset : Nat) : Bool :=
  (data.take offset).all isWhitespaceChar

/-- `Text::TextEndsWithOnlyWhitespace(offset)`. -/
def textEndsWithOnlyWhitespace (data : List Char) (offset : Nat) : Bool :=
  (data.drop offset).all isWhitespaceChar

/-- `nsIContent::TextIsOnlyWhitespace`: text nodes only; anything else
is "significant". -/
def textIsOnlyWhitespace : DomNode → Bool
  | .text _ data => data.all isWhitespaceChar
  | _ => false

/-- `nsHTMLCopyEncoder::IsMozBR` (lines 2351-2354): a `<br>` that is
padding for the empty last line. -/
def isMozBR : DomNode → Bool
  | .element Tag.br _ paddingBR _ => paddingBR
  | _ => false

/-- Modelled from the spec: block-level element classification
(`nsHTMLElement::IsBlock` reads the external element table, which is
outside this translation unit); a representative set of block tags.  No
claim depends on the exact membership. -/
def isBlockTag : Tag → Bool
  | Tag.body | Tag.div | Tag.par | Tag.pre | Tag.table | Tag.tr
  | Tag.td | Tag.th | Tag.tbody | Tag.thead | Tag.tfoot => true
  | _ => false

def containerIsBlock (doc : DomNode) (p : List Nat) : Bool :=
  match nodeAt doc p with
  | some (DomNode.element t _ _ _) => isBlockTag t
  | _ => false

/-- `nsHTMLCopyEncoder::IsRoot` (lines 2418-2442): promotion never
crosses these elements. -/
def isRootPath (doc : DomNode) (ccfg : CopyEncoderConfig)
    (p : List Nat) : Bool :=
  match nodeAt doc p with
  | some (DomNode.element t _ _ _) =>
    if ccfg.isTextWidget then t = Tag.div
    else t = Tag.body || t = Tag.td || t = Tag.th || t = Tag.slot
  | _ => false

/-- `nsINode::IsEditable` for a node referenced by path. -/
def nodeEditable (doc : DomNode) (p : List Nat) : Bool :=
  match nodeAt doc p with
  | some (DomNode.element _ e _ _) => e
  | some (DomNode.text e _) => e
  | _ => false

def childrenAt (doc : DomNode) (p : List Nat) : List DomNode :=
  match nodeAt doc p with
  | some n => n.childrenList
  | none => []

/-- Number of boundary offsets a container admits (character count for
character data, child count for elements). -/
def nodeLen : DomNode → Nat
  | .text _ data => data.length
  | .comment data => data.length
  | .element _ _ _ cs => cs.length

/-- `ChildIsFirstNode` (lines 2444-2480), DOM branch: no significant
(non-whitespace-only) sibling precedes the child at the offset; with no
child before the offset the sibling loop is vacuous. -/
def childIsFirstNode (doc : DomNode) (container : List Nat)
    (offset : Nat) : Bool :=
  let children := childrenAt doc container
  if children.length < offset then true
  else (children.take offset).all textIsOnlyWhitespace

/-- `ChildIsLastNode` (lines 2482-2530), DOM branch: no significant
sibling follows the child at the offset (whitespace-only text and
trailing padding `<br>` are insignificant). -/
def childIsLastNode (doc : DomNode) (container : List Nat)
    (offset : Nat) : Bool :=
  let children := childrenAt doc container
  if children.length ≤ offset then true
  else (children.drop (offset + 1)).all
    (fun c => isMozBR c || textIsOnlyWhitespace c)

/-- `nsHTMLCopyEncoder::GetParentPoint` (lines 2373-2416), DOM branch:
the parent container with the child's index; errors when the container
has no content parent.  (`ComputeIndexOf` cannot return `Nothing` in the
path model, so the unset-boundary result for roots of generated content
does not arise.) -/
def getParentPoint (aPoint : RawBoundary) : Except Unit RawBoundary :=
  match aPoint.container with
  | none => .error ()
  | some [] => .error ()
  | some (i :: p) =>
    .ok ⟨some (i :: p).dropLast, (i :: p).getLast (List.cons_ne_nil i p)⟩

/-- The climb loop of `GetPromotedStartPoint` (lines 2172-2196): walk up
while not at the limit, not at a root, and the pointed child is the
first significant one; a pending whitespace-driven `resetPromotion` is
cleared on crossing a block-level ancestor. -/
def climbStart (doc : DomNode) (ccfg : CopyEncoderConfig)
    (common : List Nat) :
    List Nat → Nat → Bool → Except Unit (List Nat × Nat × Bool)
  | container, offset, reset =>
    if container = common ∨ isRootPath doc ccfg container
        ∨ ¬ childIsFirstNode doc container offset then
      .ok (container, offset, reset)
    else
      let reset2 :=
        if reset ∧ containerIsBlock doc container then false else reset
      match container with
      | [] => .error ()
      | i :: p =>
        climbStart doc ccfg common (i :: p).dropLast
          ((i :: p).getLast (List.cons_ne_nil i p)) reset2
termination_by container _ _ => container.length
decreasing_by
  simp [List.length_dropLast]

/-- The climb loop of `GetPromotedEndPoint` (lines 2297-2337); the
generated-content break is dead in the path model since `GetParentPoint`
never yields an unset boundary here. -/
def climbEnd (doc : DomNode) (ccfg : CopyEncoderConfig)
    (common : List Nat) :
    List Nat → Nat → Bool → Except Unit (List Nat × Nat × Bool)
  | container, offset, reset =>
    if container = common ∨ isRootPath doc ccfg container
        ∨ ¬ childIsLastNode doc container offset then
      .ok (container, offset, reset)
    else
      let reset2 :=
        if reset ∧ containerIsBlock doc container then false else reset
      match container with
      | [] => .error ()
      | i :: p =>
        climbEnd doc ccfg common (i :: p).dropLast
          ((i :: p).getLast (List.cons_ne_nil i p)) reset2
termination_by container _ _ => container.length
decreasing_by
  simp [List.length_dropLast]

/-- `nsHTMLCopyEncoder::GetPromotedStartPoint` (lines 2086-2199),
DOM-tree kind. -/
def getPromotedStartPoint (doc : DomNode) (ccfg : CopyEncoderConfig)
    (aPoint : RawBoundary) (common : List Nat) :
    Except Unit RawBoundary := do
  match aPoint.container with
  | none => .error ()
  | some container =>
    if container = common then return aPoint
    let finish : List Nat → Nat → Bool → Except Unit RawBoundary :=
      fun c off reset => do
        if isRootPath doc ccfg (c ++ [off]) then return aPoint
        let r ← climbStart doc ccfg common c off reset
        return if r.2.2 then aPoint else ⟨some r.1, r.2.1⟩
    match nodeAt doc container with
    | some (DomNode.text _ data) =>
      if aPoint.offset ≠ 0
          ∧ ¬ textStartsWithOnlyWhitespace data aPoint.offset then
        return aPoint
      let reset := decide (aPoint.offset ≠ 0)
      let pp ← getParentPoint ⟨some container, aPoint.offset⟩
      match pp.container with
      | none => return aPoint
      | some ppc =>
        if ppc = common then return aPoint
        finish ppc pp.offset reset
    | some node =>
      if node.childCount ≠ 0 ∧ aPoint.offset ≠ node.childCount then
        if container = common then return aPoint
        finish container aPoint.offset false
      else
        let pp ← getParentPoint ⟨some container, aPoint.offset⟩
        match pp.container with
        | none => return aPoint
        | some ppc => finish ppc pp.offset false
    | none => .error ()

/-- `nsHTMLCopyEncoder::GetPromotedEndPoint` (lines 2201-2349),
DOM-tree kind.  The result points AFTER the found child. -/
def getPromotedEndPoint (doc : DomNode) (ccfg : CopyEncoderConfig)
    (aPoint : RawBoundary) (common : List Nat) :
    Except Unit RawBoundary := do
  match aPoint.container with
  | none => .error ()
  | some container =>
    if container = common then return aPoint
    let finish : List Nat → Nat → Bool → Except Unit RawBoundary :=
      fun c off reset => do
        if isRootPath doc ccfg (c ++ [off]) then return aPoint
        let r ← climbEnd doc ccfg common c off reset
        if r.2.2 then return aPoint
        else
          match (childrenAt doc r.1).get? r.2.1 with
          | some _ => return ⟨some r.1, r.2.1 + 1⟩
          | none => return ⟨some r.1, (childrenAt doc r.1).length⟩
    match nodeAt doc container with
    | some (DomNode.text _ data) =>
      if aPoint.offset ≠ data.length
          ∧ ¬ textEndsWithOnlyWhitespace data aPoint.offset then
        return aPoint
      let reset := decide (aPoint.offset ≠ data.length)
      let pp ← getParentPoint ⟨some container, aPoint.offset⟩
      match pp.container with
      | none => return aPoint
      | some ppc =>
        if ppc = common then return aPoint
        finish ppc pp.offset reset
    | some node =>
      if node.childCount ≠ 0 then
        if container = common then return aPoint
        if aPoint.offset = 0 then finish container aPoint.offset false
        else
          match (childrenAt doc container).get? (aPoint.offset - 1) with
          | none => .error ()
          | some _ => finish container (aPoint.offset - 1) false
      else
        match getParentPoint ⟨some container, aPoint.offset⟩ with
        | .error _ => return ⟨none, 0⟩
        | .ok pp =>
          match pp.container with
          | none => return aPoint
          | some ppc => finish ppc pp.offset false
    | none => .error ()

/-- `nsHTMLCopyEncoder::PromoteAncestorChain` (lines 2042-2084): climb
one level at a time while both endpoints promote exactly to the parent
and the parent's editability matches the ORIGINAL container's. -/
def promoteAncestorChain (doc : DomNode) (ccfg : CopyEncoderConfig)
    (origContainer : List Nat) :
    List Nat → Nat → Nat → Except Unit (List Nat × Nat × Nat)
  | container, s, e =>
    match container with
    | [] => .ok (container, s, e)
    | i :: p => do
      let parent := (i :: p).dropLast
      let ps ← getPromotedStartPoint doc ccfg ⟨some (i :: p), s⟩ parent
      let pe ← getPromotedEndPoint doc ccfg ⟨some (i :: p), e⟩ parent
      if ps.container ≠ some parent ∨ pe.container ≠ some parent
          ∨ nodeEditable doc parent ≠ nodeEditable doc origContainer then
        .ok (i :: p, s, e)
      else
        promoteAncestorChain doc ccfg origContainer parent ps.offset pe.offset
termination_by container _ _ => container.length
decreasing_by
  simp [List.length_dropLast]

/-- A range held by the copy encoder's promoter. -/
structure PromoRange where
  startB : RawBoundary
  endB : RawBoundary
deriving DecidableEq

/-- `nsRange::SetStart`: models the validity check (resolvable
container, offset within it); `nsRange`'s boundary-ordering
normalization is external and not needed by any claim. -/
def rangeSetStart (doc : DomNode) (r : PromoRange) (b : RawBoundary) :
    Except Unit PromoRange :=
  match b.container with
  | none => .error ()
  | some p =>
    match nodeAt doc p with
    | none => .error ()
    | some n =>
      if b.offset ≤ nodeLen n then .ok { r with startB := b }
      else .error ()

/-- `nsRange::SetEnd`, as `rangeSetStart`. -/
def rangeSetEnd (doc : DomNode) (r : PromoRange) (b : RawBoundary) :
    Except Unit PromoRange :=
  match b.container with
  | none => .error ()
  | some p =>
    match nodeAt doc p with
    | none => .error ()
    | some n =>
      if b.offset ≤ nodeLen n then .ok { r with endB := b }
      else .error ()

/-- `nsHTMLCopyEncoder::PromoteRange` (lines 1953-2036), DOM-tree kind
(`AllowCrossShadowBoundary` clear, so the boundaries are the plain DOM
boundaries): unpositioned range → `NS_ERROR_UNEXPECTED`; compute both
promoted points, optionally the joint ancestor-chain promotion, and only
then apply `SetStart` / `SetEnd`. -/
def promoteRange (doc : DomNode) (ccfg : CopyEncoderConfig)
    (r : PromoRange) : PromoRange × Bool :=
  match r.startB.container, r.endB.container with
  | some sp, some ep =>
    let common := commonAncestorPath sp ep
    match getPromotedStartPoint doc ccfg r.startB common with
    | .error _ => (r, false)
    | .ok ps =>
      match getPromotedEndPoint doc ccfg r.endB common with
      | .error _ => (r, false)
      | .ok pe =>
        let applySet : RawBoundary → RawBoundary → PromoRange × Bool :=
          fun bs be =>
            match rangeSetStart doc r bs with
            | .error _ => (r, false)
            | .ok r1 =>
              match rangeSetEnd doc r1 be with
              | .error _ => (r1, false)
              | .ok r2 => (r2, true)
        if ccfg.includeCommonAncestorPref ∧ ps.container = some common
            ∧ pe.container = some common then
          match promoteAncestorChain doc ccfg common common
              ps.offset pe.offset with
          | .error _ => (r, false)
          | .ok (c, s, e) => applySet ⟨some c, s⟩ ⟨some c, e⟩
        else applySet ps pe
  | _, _ => (r, false)

/-- C9: when range promotion fails — an unset boundary
(`!IsPositioned()` → `NS_ERROR_UNEXPECTED`), a failing promoted-point
computation (e.g. a parent lookup with no resolvable parent), or a
failing joint ancestor-chain promotion — `PromoteRange` reports the
error and the range's boundaries are exactly as before the call: every
mutation (`SetStart` / `SetEnd`) happens only after all of these
succeeded. -/
theorem c9_promotion_failure_leaves_range_unchanged (doc : DomNode)
    (ccfg : CopyEncoderConfig) (r : PromoRange) :
    ((r.startB.container = none ∨ r.endB.container = none) →
        promoteRange doc ccfg r = (r, false)) ∧
    (∀ sp ep, r.startB.container = some sp → r.endB.container = some ep →
      (getPromotedStartPoint doc ccfg r.startB (commonAncestorPath sp ep)
          = Except.error () →
        promoteRange doc ccfg r = (r, false)) ∧
      (∀ ps,
        getPromotedStartPoint doc ccfg r.startB (commonAncestorPath sp ep)
          = Except.ok ps →
        getPromotedEndPoint doc ccfg r.endB (commonAncestorPath sp ep)
          = Except.error () →
        promoteRange doc ccfg r = (r, false)) ∧
      (∀ ps pe,
        getPromotedStartPoint doc ccfg r.startB (commonAncestorPath sp ep)
          = Except.ok ps →
        getPromotedEndPoint doc ccfg r.endB (commonAncestorPath sp ep)
          = Except.ok pe →
        (ccfg.includeCommonAncestorPref
          ∧ ps.container = some (commonAncestorPath sp ep)
          ∧ pe.container = some (commonAncestorPath sp ep)) →
        promoteAncestorChain doc ccfg (commonAncestorPath sp ep)
            (commonAncestorPath sp ep) ps.offset pe.offset
          = Except.error () →
        promoteRange doc ccfg r = (r, false))) := by
  constructor
  · intro h
    rcases hs : r.startB.container with _ | sp
    · simp [promoteRange.eq_def, hs]
    · rcases he : r.endB.container with _ | ep
      · simp [promoteRange.eq_def, hs, he]
      · rcases h with h | h
        · simp [hs] at h
        · simp [he] at h
  · intro sp ep hsp hep
    refine ⟨?_, ?_, ?_⟩
    · intro herr
      simp only [promoteRange.eq_def, hsp, hep, herr]
    · intro ps hps herr
      simp only [promoteRange.eq_def, hsp, hep, hps, herr]
    · intro ps pe hps hpe hcond hchain
      simp only [promoteRange.eq_def, hsp, hep, hps, hpe]
      rw [if_pos hcond]
      simp only [hchain]

theorem c9_promotion_failure_leaves_range_unchanged_witness :
    promoteRange (DomNode.element Tag.body false false []) ⟨false, true⟩
        ⟨⟨none, 0⟩, ⟨some [], 0⟩⟩
      = (⟨⟨none, 0⟩, ⟨some [], 0⟩⟩, false) :=
  (c9_promotion_failure_leaves_range_unchanged
      (DomNode.element Tag.body false false []) ⟨false, true⟩
      ⟨⟨none, 0⟩, ⟨some [], 0⟩⟩).1 (Or.inl rfl)
